import Mathlib

/- A shallow embedding of the valuation/scoring core of the Benjamin Graham
stock analyzer (src/valuations.py and src/screener.py). Python floats are
modelled as rationals, Optional[float] as Option Rat, and statement data
dicts as association lists of raw JSON-ish values. Python truthiness of an
Optional[float] (None and 0.0 are falsy) is modelled explicitly, and the two
places where the source can raise a TypeError (summing two possibly-None
safe_float results, and formatting a None with a float format spec) are
modelled with Except. -/

/- Batteries marks rational arithmetic irreducible; concrete runs of the
embedded program are proved by kernel evaluation, so reducibility is
restored locally for this file. -/
set_option allowUnsafeReducibility true
attribute [local semireducible] Rat.mul Rat.add Rat.sub Rat.div Rat.inv Rat.neg Rat.normalize

namespace GrahamSA

/-- Raw values as they arrive in a financial statement's data map: null, a
string, or a number. A string carries the result of Python float() parsing
as an oracle: parsed = none models a non-numeric string. -/
inductive RawValue
  | null
  | str (s : String) (parsed : Option ℚ)
  | num (q : ℚ)
  deriving DecidableEq

/-- A statement's data dict, as an insertion-ordered association list. -/
abbrev StmtData := List (String × RawValue)

/-- Python dict lookup d.get(k) with no default: later bindings overwrite
earlier ones, a missing key gives none. -/
def dataGet (d : StmtData) (k : String) : Option RawValue :=
  (List.find? (fun kv => kv.1 == k) d.reverse).map (fun kv => kv.2)

/-- Python d.get(k, v): lookup with a default. -/
def dataGetD (d : StmtData) (k : String) (v : RawValue) : RawValue :=
  (dataGet d k).getD v

/-- GrahamValuator._safe_float (src/valuations.py lines 456-463): None and the
empty string give None, a string gives its float() parse (None when that
raises), a number converts exactly. It never raises. -/
def safe_float : RawValue → Option ℚ
  | .null => none
  | .str s p => if s = "" then none else p
  | .num q => some q

/-- Reinjecting an Optional[float] as a raw value, to state idempotence of
the safe cast. -/
def rawOfOpt : Option ℚ → RawValue
  | none => .null
  | some q => .num q

/-- Python truthiness of an Optional[float]: None and 0.0 are falsy. -/
def truthy : Option ℚ → Bool
  | none => false
  | some q => q != 0

/-- safe_float of d.get(k) (default None). -/
def sfGet (d : StmtData) (k : String) : Option ℚ :=
  safe_float (dataGetD d k .null)

/-- safe_float of d.get(k, 0). -/
def sfGet0 (d : StmtData) (k : String) : Option ℚ :=
  safe_float (dataGetD d k (.num 0))

/-- The screening thresholds of src/config.py, with their defaults. -/
structure Config where
  min_current_ratio : ℚ := 2
  max_debt_to_equity : ℚ := 1/2
  max_pe_ratio : ℚ := 15
  max_pb_ratio : ℚ := 3/2
  min_margin_of_safety : ℚ := 1/2
  capex_multiplier : ℚ := 6/5
  depreciation_conservatism : ℚ := 11/10
  deriving DecidableEq

def defaultConfig : Config := {}

/-- data_providers.FinancialStatement, restricted to the fields the core
reads. -/
structure FinancialStatement where
  statement_type : String
  year : ℕ
  data : StmtData
  deriving DecidableEq

/-- The by_type[ty][yr] dict lookup built in _calculate_financial_metrics
(src/valuations.py lines 87-91): statements of the same type and year
overwrite earlier ones, so the last match wins. -/
def stmtAt (statements : List FinancialStatement) (ty : String) (yr : ℕ) :
    Option FinancialStatement :=
  (statements.filter (fun s => s.statement_type == ty && s.year == yr)).getLast?

/-- The key set of the by_type[ty] dict, in insertion order. -/
def type_years (statements : List FinancialStatement) (ty : String) : List ℕ :=
  ((statements.filter (fun s => s.statement_type == ty)).map FinancialStatement.year).dedup

/-- valuations.FinancialMetrics. -/
structure Metrics where
  ticker : String
  current_ratio : Option ℚ := none
  debt_to_equity : Option ℚ := none
  roe : Option ℚ := none
  earnings_growth : Option ℚ := none
  dividend_years : ℕ := 0
  pe_ratio : Option ℚ := none
  pb_ratio : Option ℚ := none
  book_value_per_share : Option ℚ := none
  earnings_per_share : Option ℚ := none
  owner_earnings : Option ℚ := none
  ncav_per_share : Option ℚ := none
  tangible_book_value : Option ℚ := none
  deriving DecidableEq

/-- GrahamValuator._calculate_owner_earnings (src/valuations.py lines
177-209). `if not operating_cf` treats 0.0 like None; `if capex:` and
`if depreciation:` are truthiness tests, so a reported 0 falls through. -/
def calculate_owner_earnings (cfg : Config) (statements : List FinancialStatement)
    (latest_year : ℕ) : Option ℚ :=
  match stmtAt statements "cash_flow" latest_year with
  | none => none
  | some cf =>
    match sfGet cf.data "operatingCashflow" with
    | none => none
    | some operating_cf =>
      if operating_cf = 0 then none
      else
        let dep_est : ℚ :=
          match stmtAt statements "income" latest_year with
          | some inc =>
            match sfGet0 inc.data "depreciationAndAmortization" with
            | some d =>
              if d ≠ 0 then operating_cf - d * cfg.depreciation_conservatism
              else operating_cf * (4/5)
            | none => operating_cf * (4/5)
          | none => operating_cf * (4/5)
        let owner_earnings : ℚ :=
          match sfGet0 cf.data "capitalExpenditures" with
          | some c => if c ≠ 0 then operating_cf - |c| * cfg.capex_multiplier else dep_est
          | none => dep_est
        if 0 < owner_earnings then some owner_earnings else none

/-- The net income looked up for a given income-statement year. -/
def net_income_at (statements : List FinancialStatement) (y : ℕ) : Option ℚ :=
  match stmtAt statements "income" y with
  | some s => sfGet s.data "netIncome"
  | none => none

/-- sorted(income_statements.keys()) of _calculate_earnings_growth. -/
def income_years (statements : List FinancialStatement) : List ℕ :=
  (type_years statements "income").mergeSort (fun a b => decide (a ≤ b))

/-- The earnings-collection loop of _calculate_earnings_growth
(src/valuations.py lines 220-226): the whole series is invalidated by the
first year whose net income is missing or not strictly positive. -/
def collect_earnings (statements : List FinancialStatement) : List ℕ → Option (List ℚ)
  | [] => some []
  | y :: ys =>
    match net_income_at statements y with
    | some ni =>
      if ni ≠ 0 ∧ 0 < ni then (collect_earnings statements ys).map (fun es => ni :: es)
      else none
    | none => none

/-- GrahamValuator._calculate_earnings_growth (src/valuations.py lines
211-240). The float exponentiation `(end/start) ** (1/span)` is abstracted
by the parameter pw. -/
def calculate_earnings_growth (pw : ℚ → ℚ → ℚ)
    (statements : List FinancialStatement) : Option ℚ :=
  let years := income_years statements
  if years.length < 3 then none
  else
    match collect_earnings statements years with
    | none => none
    | some earnings =>
      if earnings.length < 3 then none
      else
        let start_earnings := earnings.headD 0
        let end_earnings := earnings.getLastD 0
        let years_span : ℚ := (earnings.length : ℚ) - 1
        if 0 < start_earnings then
          some (pw (end_earnings / start_earnings) (1 / years_span) - 1)
        else none

/-- GrahamValuator._count_dividend_years (src/valuations.py lines 242-253):
years whose cash-flow statement reports a truthy, negative dividendsPaid. -/
def count_dividend_years (statements : List FinancialStatement) : ℕ :=
  ((type_years statements "cash_flow").filter (fun y =>
    match stmtAt statements "cash_flow" y with
    | some s =>
      match sfGet0 s.data "dividendsPaid" with
      | some d => decide (d ≠ 0 ∧ d < 0)
      | none => false
    | none => false)).length

/-- GrahamValuator._calculate_financial_metrics (src/valuations.py lines
76-175). The only partial spot is the total-debt sum (lines 108-111), where
Python adds two Optional safe_float results and raises a TypeError when
either is None; this is the Except.error case. -/
def calculate_financial_metrics (pw : ℚ → ℚ → ℚ) (cfg : Config)
    (statements : List FinancialStatement) (ticker : String)
    (current_price : ℚ) : Except Unit Metrics :=
  let latest_year : Option ℕ :=
    match statements.map FinancialStatement.year with
    | [] => none
    | y :: ys => some (ys.foldl max y)
  match latest_year with
  | none => .ok { ticker := ticker }
  | some ly =>
    if ly = 0 then .ok { ticker := ticker }
    else
      let balance_latest := stmtAt statements "balance" ly
      let income_latest := stmtAt statements "income" ly
      let current_ratio : Option ℚ :=
        match balance_latest with
        | none => none
        | some b =>
          match sfGet b.data "totalCurrentAssets", sfGet b.data "totalCurrentLiabilities" with
          | some ca, some cl => if ca ≠ 0 ∧ cl ≠ 0 ∧ 0 < cl then some (ca / cl) else none
          | _, _ => none
      let debt_to_equity : Except Unit (Option ℚ) :=
        match balance_latest with
        | none => .ok none
        | some b =>
          match sfGet0 b.data "shortTermDebt", sfGet0 b.data "longTermDebt" with
          | some std, some ltd =>
            let total_debt := std + ltd
            .ok (match sfGet b.data "totalStockholderEquity" with
                 | some te => if te ≠ 0 ∧ 0 < te then some (total_debt / te) else none
                 | none => none)
          | _, _ => .error ()
      let book_value_per_share : Option ℚ :=
        match balance_latest with
        | none => none
        | some b =>
          match sfGet b.data "totalStockholderEquity",
              sfGet b.data "commonStockSharesOutstanding" with
          | some bv, some sh => if bv ≠ 0 ∧ sh ≠ 0 ∧ 0 < sh then some (bv / sh) else none
          | _, _ => none
      let ncav_per_share : Option ℚ :=
        match balance_latest with
        | none => none
        | some b =>
          match sfGet0 b.data "totalCurrentAssets", sfGet0 b.data "totalLiabilities",
              sfGet b.data "commonStockSharesOutstanding" with
          | some ca, some tl, some sh =>
            if ca ≠ 0 ∧ sh ≠ 0 ∧ 0 < sh then some ((ca - tl) / sh) else none
          | _, _, _ => none
      let tangible_book_value : Option ℚ :=
        match balance_latest with
        | none => none
        | some b =>
          match sfGet0 b.data "totalStockholderEquity",
              sfGet b.data "commonStockSharesOutstanding" with
          | some bv, some sh =>
            if sh ≠ 0 ∧ 0 < sh then
              some ((bv - (sfGet0 b.data "intangibleAssets").getD 0
                       - (sfGet0 b.data "goodwill").getD 0) / sh)
            else none
          | _, _ => none
      let eps_pe : Option ℚ × Option ℚ :=
        match income_latest, balance_latest with
        | some inc, some b =>
          match sfGet inc.data "netIncome", sfGet b.data "commonStockSharesOutstanding" with
          | some ni, some sh =>
            if ni ≠ 0 ∧ sh ≠ 0 ∧ 0 < sh then
              let eps := ni / sh
              (some eps, if 0 < eps then some (current_price / eps) else none)
            else (none, none)
          | _, _ => (none, none)
        | _, _ => (none, none)
      let pb_ratio : Option ℚ :=
        match book_value_per_share with
        | some bvps => if bvps ≠ 0 ∧ 0 < bvps then some (current_price / bvps) else none
        | none => none
      let roe : Option ℚ :=
        match income_latest, balance_latest with
        | some inc, some b =>
          match sfGet inc.data "netIncome", sfGet b.data "totalStockholderEquity" with
          | some ni, some eq => if ni ≠ 0 ∧ eq ≠ 0 ∧ 0 < eq then some (ni / eq) else none
          | _, _ => none
        | _, _ => none
      match debt_to_equity with
      | .error e => .error e
      | .ok dte =>
        .ok { ticker := ticker
              current_ratio := current_ratio
              debt_to_equity := dte
              roe := roe
              earnings_growth := calculate_earnings_growth pw statements
              dividend_years := count_dividend_years statements
              pe_ratio := eps_pe.2
              pb_ratio := pb_ratio
              book_value_per_share := book_value_per_share
              earnings_per_share := eps_pe.1
              owner_earnings := calculate_owner_earnings cfg statements ly
              ncav_per_share := ncav_per_share
              tangible_book_value := tangible_book_value }

/-- valuations.ValuationResult. -/
structure ValuationResult where
  method : String
  intrinsic_value : ℚ
  current_price : ℚ
  margin_of_safety : ℚ
  confidence : String
  assumptions : List String
  warnings : List String
  deriving DecidableEq

/-- The shares-outstanding lookup shared by EPV and the conservative DCF
(src/valuations.py lines 270-276 and 404-410): the first balance statement in
input order whose commonStockSharesOutstanding safe-casts to a truthy value. -/
def find_shares_outstanding : List FinancialStatement → Option ℚ
  | [] => none
  | s :: rest =>
    if s.statement_type == "balance" then
      match sfGet s.data "commonStockSharesOutstanding" with
      | some sh => if sh ≠ 0 then some sh else find_shares_outstanding rest
      | none => find_shares_outstanding rest
    else find_shares_outstanding rest

/-- GrahamValuator._calculate_epv (src/valuations.py lines 255-312). The
narrative strings are carried verbatim where constant; number rendering
inside them is abstracted with toString. -/
def calculate_epv (cfg : Config) (statements : List FinancialStatement)
    (current_price : ℚ) (metrics : Metrics) : Option ValuationResult :=
  match metrics.owner_earnings with
  | none => none
  | some oe =>
    if oe = 0 then none
    else
      match metrics.book_value_per_share with
      | none => none
      | some bvps =>
        if bvps = 0 then none
        else
          match find_shares_outstanding statements with
          | none => none
          | some shares_outstanding =>
            let owner_earnings_per_share := oe / shares_outstanding
            let epv_per_share := owner_earnings_per_share / (1/10)
            let margin_of_safety :=
              if 0 < epv_per_share then (epv_per_share - current_price) / epv_per_share
              else -1
            let assumptions : List String :=
              ["10 percent discount rate used", "No growth assumed (conservative)",
               "Owner earnings: " ++ toString oe,
               "Capex multiplier: " ++ toString cfg.capex_multiplier]
            let w0 : List String := []
            let c0 := "high"
            let wc1 : List String × String :=
              if margin_of_safety < 3/10 then (w0 ++ ["Margin of safety below 30 percent"], "medium")
              else (w0, c0)
            let cr_low : Bool :=
              match metrics.current_ratio with
              | none => true
              | some cr => cr == 0 || decide (cr < 2)
            let wc2 : List String × String :=
              if cr_low then (wc1.1 ++ ["Current ratio below 2.0"], "medium")
              else wc1
            some { method := "Earnings Power Value (EPV)"
                   intrinsic_value := epv_per_share
                   current_price := current_price
                   margin_of_safety := margin_of_safety
                   confidence := wc2.2
                   assumptions := assumptions
                   warnings := wc2.1 }

/-- GrahamValuator._calculate_asset_value (src/valuations.py lines 314-356):
NCAV preferred when truthy and positive (confidence high), else tangible
book value with a 20 percent haircut (confidence medium), else absent; a
margin of safety below 50 percent downgrades to low. -/
def calculate_asset_value (statements : List FinancialStatement)
    (current_price : ℚ) (metrics : Metrics) : Option ValuationResult :=
  let tbv_pick : Option (ℚ × String × List String × List String) :=
    match metrics.tangible_book_value with
    | some tbv =>
      if tbv ≠ 0 ∧ 0 < tbv then
        some (tbv * (4/5), "medium",
          ["Using Tangible Book Value with 20 percent haircut",
           "Excludes goodwill and intangibles"],
          ["Assuming 20 percent haircut on tangible assets"])
      else none
    | none => none
  let pick : Option (ℚ × String × List String × List String) :=
    match metrics.ncav_per_share with
    | some ncav =>
      if ncav ≠ 0 ∧ 0 < ncav then
        some (ncav, "high",
          ["Using Net Current Asset Value (NCAV)", "All current assets at full value",
           "All liabilities at face value"], [])
      else tbv_pick
    | none => tbv_pick
  match pick with
  | none => none
  | some (intrinsic_value, conf0, assumptions, warnings0) =>
    let margin_of_safety :=
      if 0 < intrinsic_value then (intrinsic_value - current_price) / intrinsic_value
      else -1
    let wc : String × List String :=
      if margin_of_safety < 1/2 then
        ("low", warnings0 ++ ["Graham prefers 50 percent plus margin for asset plays"])
      else (conf0, warnings0)
    some { method := "Asset-Based Valuation"
           intrinsic_value := intrinsic_value
           current_price := current_price
           margin_of_safety := margin_of_safety
           confidence := wc.1
           assumptions := assumptions
           warnings := wc.2 }

/-- GrahamValuator._calculate_conservative_dcf (src/valuations.py lines
358-435). `if not ... or not ...` is Python truthiness, so an owner_earnings
or earnings_growth of exactly 0 returns None. -/
def calculate_conservative_dcf (statements : List FinancialStatement)
    (current_price : ℚ) (metrics : Metrics) : Option ValuationResult :=
  match metrics.owner_earnings with
  | none => none
  | some oe =>
    if oe = 0 then none
    else
      match metrics.earnings_growth with
      | none => none
      | some eg =>
        if eg = 0 then none
        else
          let growth_rate0 := min eg (1/20)
          let growth_rate := if growth_rate0 < 0 then 0 else growth_rate0
          let terminal_growth := min (growth_rate * (1/2)) (1/50)
          let discount_rate : ℚ := 12/100
          let assumptions : List String :=
            ["Growth rate (capped at 5 percent): " ++ toString growth_rate,
             "Terminal growth: " ++ toString terminal_growth,
             "Discount rate: " ++ toString discount_rate,
             "10-year projection period"]
          let present_value : ℚ :=
            (List.range 10).foldl
              (fun acc i =>
                let year := i + 1
                let future_earnings := oe * (1 + growth_rate) ^ year
                acc + future_earnings / (1 + discount_rate) ^ year) 0
          let terminal_earnings := oe * (1 + growth_rate) ^ 10
          let terminal_value :=
            terminal_earnings * (1 + terminal_growth) / (discount_rate - terminal_growth)
          let terminal_pv := terminal_value / (1 + discount_rate) ^ 10
          let total_value := present_value + terminal_pv
          match find_shares_outstanding statements with
          | none => none
          | some shares_outstanding =>
            let dcf_per_share := total_value / shares_outstanding
            let margin_of_safety :=
              if 0 < dcf_per_share then (dcf_per_share - current_price) / dcf_per_share
              else -1
            let w1 : List String :=
              if 3/100 < growth_rate then ["Growth rate above 3 percent increases uncertainty"]
              else []
            let warnings : List String :=
              if margin_of_safety < 1/2 then
                w1 ++ ["Graham requires large margin for growth assumptions"]
              else w1
            some { method := "Conservative DCF"
                   intrinsic_value := dcf_per_share
                   current_price := current_price
                   margin_of_safety := margin_of_safety
                   confidence := "low"
                   assumptions := assumptions
                   warnings := warnings }

/-- The weights dict of triangulate_value: weights.get(confidence, 1) is
modelled as (weights_lookup confidence).getD 1. -/
def weights_lookup (c : String) : Option ℚ :=
  if c = "high" then some 3
  else if c = "medium" then some 2
  else if c = "low" then some 1
  else none

/-- GrahamValuator.triangulate_value (src/valuations.py lines 437-454). -/
def triangulate_value (valuations : List ValuationResult) : Option ℚ :=
  match valuations with
  | [] => none
  | _ :: _ =>
    let acc : ℚ × ℚ :=
      valuations.foldl
        (fun acc v =>
          let weight := (weights_lookup v.confidence).getD 1
          (acc.1 + v.intrinsic_value * weight, acc.2 + weight)) (0, 0)
    if 0 < acc.2 then some (acc.1 / acc.2) else none

/-- screener.ScreenResult. -/
structure ScreenResult where
  ticker : String
  company_name : String
  sector : String
  current_price : ℚ
  intrinsic_value : ℚ
  margin_of_safety : ℚ
  triangulated_value : ℚ
  valuations : List ValuationResult
  metrics : Metrics
  graham_score : ℚ
  rank : ℕ := 0
  deriving DecidableEq

/-- The failure reasons collected by _apply_graham_filters, as tagged values
carrying the numbers the f-strings interpolate (string presentation is not
load-bearing for any claim). -/
inductive Reason
  | current_ratio_low (v : ℚ) (minv : ℚ)
  | debt_to_equity_high (v : ℚ) (maxv : ℚ)
  | earnings_growth_bad
  | pe_ratio_high (v : ℚ) (maxv : ℚ)
  | pb_ratio_high (v : ℚ) (maxv : ℚ)
  | pe_pb_high (v : ℚ)
  | margin_of_safety_low (v : ℚ) (minv : ℚ)
  | book_value_bad
  deriving DecidableEq

/-- Check 1 of _apply_graham_filters (src/screener.py lines 214-216). The
reason f-string formats metrics.current_ratio with :.2f, which raises a
TypeError when it is None; that raise is the Except.error case. -/
def check1 (cfg : Config) (m : Metrics) : Except Unit (List Reason) :=
  let cond : Bool :=
    match m.current_ratio with
    | none => true
    | some v => v == 0 || decide (v < cfg.min_current_ratio)
  if cond then
    match m.current_ratio with
    | none => .error ()
    | some v => .ok [Reason.current_ratio_low v cfg.min_current_ratio]
  else .ok []

/-- Check 2 (src/screener.py lines 218-220): debt/equity, vacuous when
absent or falsy. -/
def check2 (cfg : Config) (m : Metrics) : List Reason :=
  match m.debt_to_equity with
  | some v =>
    if v ≠ 0 ∧ cfg.max_debt_to_equity < v then [Reason.debt_to_equity_high v cfg.max_debt_to_equity]
    else []
  | none => []

/-- Check 3 (src/screener.py lines 222-224): `not eg or eg < 0`, so an
earnings_growth of exactly 0 fails by truthiness. -/
def check3 (m : Metrics) : List Reason :=
  match m.earnings_growth with
  | none => [Reason.earnings_growth_bad]
  | some v => if v = 0 ∨ v < 0 then [Reason.earnings_growth_bad] else []

/-- Check 4 (src/screener.py lines 226-228): PE, vacuous when absent or
falsy. -/
def check4 (cfg : Config) (m : Metrics) : List Reason :=
  match m.pe_ratio with
  | some v =>
    if v ≠ 0 ∧ cfg.max_pe_ratio < v then [Reason.pe_ratio_high v cfg.max_pe_ratio] else []
  | none => []

/-- Check 5 (src/screener.py lines 230-232): PB, vacuous when absent or
falsy. -/
def check5 (cfg : Config) (m : Metrics) : List Reason :=
  match m.pb_ratio with
  | some v =>
    if v ≠ 0 ∧ cfg.max_pb_ratio < v then [Reason.pb_ratio_high v cfg.max_pb_ratio] else []
  | none => []

/-- Check 6 (src/screener.py lines 234-237): the PE times PB combination
rule, applied only when both are truthy. -/
def check6 (m : Metrics) : List Reason :=
  match m.pe_ratio, m.pb_ratio with
  | some pe, some pb =>
    if pe ≠ 0 ∧ pb ≠ 0 ∧ 45/2 < pe * pb then [Reason.pe_pb_high (pe * pb)] else []
  | _, _ => []

/-- Check 7 (src/screener.py lines 239-241): overall margin of safety. -/
def check7 (cfg : Config) (margin_of_safety : ℚ) : List Reason :=
  if margin_of_safety < cfg.min_margin_of_safety then
    [Reason.margin_of_safety_low margin_of_safety cfg.min_margin_of_safety]
  else []

/-- Check 8 (src/screener.py lines 243-245): positive book value
(truthiness, then the sign test). -/
def check8 (m : Metrics) : List Reason :=
  match m.book_value_per_share with
  | none => [Reason.book_value_bad]
  | some v => if v = 0 ∨ v ≤ 0 then [Reason.book_value_bad] else []

/-- The per-candidate reason collection of _apply_graham_filters
(src/screener.py lines 211-245): all eight checks run and append, in order;
only check 1 can raise. -/
def graham_reasons (cfg : Config) (result : ScreenResult) : Except Unit (List Reason) :=
  match check1 cfg result.metrics with
  | .error e => .error e
  | .ok r1 =>
    .ok (r1 ++ check2 cfg result.metrics ++ check3 result.metrics
         ++ check4 cfg result.metrics ++ check5 cfg result.metrics
         ++ check6 result.metrics ++ check7 cfg result.margin_of_safety
         ++ check8 result.metrics)

/-- GrahamScreener._apply_graham_filters (src/screener.py lines 206-254): a
candidate qualifies exactly when its reason list is empty. -/
def apply_graham_filters (cfg : Config) : List ScreenResult → Except Unit (List ScreenResult)
  | [] => .ok []
  | r :: rest =>
    match graham_reasons cfg r with
    | .error e => .error e
    | .ok reasons =>
      match apply_graham_filters cfg rest with
      | .error e => .error e
      | .ok qtail => .ok (if reasons.isEmpty then r :: qtail else qtail)

/-- GrahamScreener._calculate_graham_score (src/screener.py lines 256-319):
six buckets summed, capped at 100. Guards follow the source exactly:
current_ratio, pe_ratio, pb_ratio and earnings_growth by truthiness,
debt_to_equity by `is not None`. -/
def calculate_graham_score (metrics : Metrics) (margin_of_safety : ℚ) : ℚ :=
  let liquidity : ℚ :=
    match metrics.current_ratio with
    | some cr =>
      if cr = 0 then 0
      else if 3 ≤ cr then 20 else if 2 ≤ cr then 15
      else if 3/2 ≤ cr then 10 else if 1 ≤ cr then 5 else 0
    | none => 0
  let leverage : ℚ :=
    match metrics.debt_to_equity with
    | some de => if de ≤ 3/10 then 15 else if de ≤ 1/2 then 10 else if de ≤ 7/10 then 5 else 0
    | none => 0
  let pe_score : ℚ :=
    match metrics.pe_ratio with
    | some pe =>
      if pe = 0 then 0
      else if pe ≤ 10 then 15 else if pe ≤ 15 then 10 else if pe ≤ 20 then 5 else 0
    | none => 0
  let pb_score : ℚ :=
    match metrics.pb_ratio with
    | some pb => if pb = 0 then 0 else if pb ≤ 1 then 10 else if pb ≤ 3/2 then 5 else 0
    | none => 0
  let growth : ℚ :=
    match metrics.earnings_growth with
    | some eg =>
      if eg = 0 then 0
      else if 1/10 ≤ eg then 15 else if 1/20 ≤ eg then 10 else if 0 < eg then 5 else 0
    | none => 0
  let dividends : ℚ :=
    if 10 ≤ metrics.dividend_years then 10 else if 5 ≤ metrics.dividend_years then 5 else 0
  let mos_bonus : ℚ :=
    if 7/10 ≤ margin_of_safety then 15 else if 1/2 ≤ margin_of_safety then 10
    else if 3/10 ≤ margin_of_safety then 5 else 0
  min (liquidity + leverage + pe_score + pb_score + growth + dividends + mos_bonus) 100

/-- The Python sort key tuple (graham_score, margin_of_safety). -/
def sort_key (s : ScreenResult) : ℚ × ℚ := (s.graham_score, s.margin_of_safety)

/-- Lexicographic less-or-equal on sort-key tuples, as Python compares
them. -/
def key_le (a b : ℚ × ℚ) : Bool :=
  decide (a.1 < b.1) || (a.1 == b.1 && decide (a.2 ≤ b.2))

/-- The comparator realised by `sorted(stocks, key=..., reverse=True)`: a
stays before b exactly when its key is lexicographically at least b's, which
together with merge-sort stability is Python's stable descending sort. -/
def desc_le (a b : ScreenResult) : Bool := key_le (sort_key b) (sort_key a)

/-- The rank-assignment loop of _rank_stocks (src/screener.py lines
332-334): enumerate from the given start, writing only the rank field. -/
def assign_ranks : ℕ → List ScreenResult → List ScreenResult
  | _, [] => []
  | i, s :: rest => { s with rank := i } :: assign_ranks (i + 1) rest

/-- GrahamScreener._rank_stocks (src/screener.py lines 321-336). -/
def rank_stocks (stocks : List ScreenResult) : List ScreenResult :=
  assign_ranks 1 (stocks.mergeSort desc_le)

/-- Clearing the rank field, to state that ranking writes nothing else. -/
def clear_rank (s : ScreenResult) : ScreenResult := { s with rank := 0 }

/-- Operating cash flow as _calculate_owner_earnings extracts it. -/
def ocf_at (statements : List FinancialStatement) (latest_year : ℕ) : Option ℚ :=
  match stmtAt statements "cash_flow" latest_year with
  | some s => sfGet s.data "operatingCashflow"
  | none => none

/-- Capex as _calculate_owner_earnings extracts it (default 0). -/
def capex_at (statements : List FinancialStatement) (latest_year : ℕ) : Option ℚ :=
  match stmtAt statements "cash_flow" latest_year with
  | some s => sfGet0 s.data "capitalExpenditures"
  | none => none

/-- Depreciation as _calculate_owner_earnings extracts it (default 0; none
when there is no income statement for the year). -/
def dep_at (statements : List FinancialStatement) (latest_year : ℕ) : Option ℚ :=
  match stmtAt statements "income" latest_year with
  | some s => sfGet0 s.data "depreciationAndAmortization"
  | none => none

/-- Owner earnings exactly as claim C7 words it: branch (a) whenever capex
is reported at all, branch (b) whenever depreciation is reported at all,
branch (c) otherwise; absent when operating cash flow is absent or the
computed value is at most 0. Stated for refutation against the source
definition. -/
def owner_earnings_claim (cfg : Config) (ocf capex dep : Option ℚ) : Option ℚ :=
  match ocf with
  | none => none
  | some o =>
    let maintenance : ℚ :=
      match capex with
      | some c => |c| * cfg.capex_multiplier
      | none =>
        match dep with
        | some d => d * cfg.depreciation_conservatism
        | none => o * (1/5)
    let oe := o - maintenance
    if oe ≤ 0 then none else some oe

/-- Owner earnings as the amended claim words it: branch (a) only when capex
is reported and nonzero, branch (b) only when depreciation is reported and
nonzero, branch (c) otherwise; absent when operating cash flow is absent or
zero, or the computed value is at most 0. -/
def owner_earnings_amended (cfg : Config) (ocf capex dep : Option ℚ) : Option ℚ :=
  match ocf with
  | none => none
  | some o =>
    if o = 0 then none
    else
      let dep_maintenance : ℚ :=
        match dep with
        | some d => if d ≠ 0 then d * cfg.depreciation_conservatism else o * (1/5)
        | none => o * (1/5)
      let maintenance : ℚ :=
        match capex with
        | some c => if c ≠ 0 then |c| * cfg.capex_multiplier else dep_maintenance
        | none => dep_maintenance
      let oe := o - maintenance
      if oe ≤ 0 then none else some oe

/- Concrete inputs used by the claim theorems and witnesses. -/

/-- A balance statement whose shortTermDebt is present but null: the
safe_float of it is None, and line 108-111 of src/valuations.py adds it to
another safe_float result. -/
def stmts_null_debt : List FinancialStatement :=
  [⟨"balance", 2023, [("shortTermDebt", RawValue.null),
                      ("totalStockholderEquity", RawValue.num 100)]⟩]

/-- The passing candidate of claim C5 (and of the repo's own
test_calculate_graham_score_excellent fixture). -/
def metrics_good : Metrics :=
  { ticker := "GOOD", current_ratio := some (5/2), debt_to_equity := some (3/10),
    pe_ratio := some 12, pb_ratio := some (6/5), book_value_per_share := some 20,
    earnings_growth := some (8/100), dividend_years := 10 }

/-- The C5 candidate as a full screen result with a 60 percent margin of
safety. -/
def screen_good : ScreenResult :=
  { ticker := "GOOD", company_name := "Good Company", sector := "Technology",
    current_price := 20, intrinsic_value := 30, margin_of_safety := 3/5,
    triangulated_value := 30, valuations := [], metrics := metrics_good,
    graham_score := 85 }

/-- A candidate whose metrics are all absent (in particular current_ratio),
reachable in the pipeline whenever a valuation succeeds without balance
ratios. -/
def screen_no_cr : ScreenResult :=
  { screen_good with metrics := { ticker := "BAD" } }

/-- The C4 candidate: identical to the passing one except that its earnings
growth is present and exactly 0. -/
def screen_eg0 : ScreenResult :=
  { screen_good with metrics := { metrics_good with earnings_growth := some 0 } }

/-- The three C2 estimates: 16.80 high, 2.00 medium, 25.00 low. -/
def est_high_1680 : ValuationResult :=
  { method := "EPV", intrinsic_value := 84/5, current_price := 0,
    margin_of_safety := 0, confidence := "high", assumptions := [], warnings := [] }

def est_medium_200 : ValuationResult :=
  { est_high_1680 with intrinsic_value := 2, confidence := "medium" }

def est_low_2500 : ValuationResult :=
  { est_high_1680 with intrinsic_value := 25, confidence := "low" }

/-- The C7 counterexample input: operating cash flow 100, capex reported as
exactly 0, depreciation reported as 10. -/
def stmts_capex0 : List FinancialStatement :=
  [⟨"cash_flow", 2023, [("operatingCashflow", RawValue.num 100),
                        ("capitalExpenditures", RawValue.num 0)]⟩,
   ⟨"income", 2023, [("depreciationAndAmortization", RawValue.num 10)]⟩]

/-- The C7 numeric example: operating cash flow 120,000,000 and capex
-30,000,000. -/
def stmts_84m : List FinancialStatement :=
  [⟨"cash_flow", 2023, [("operatingCashflow", RawValue.num 120000000),
                        ("capitalExpenditures", RawValue.num (-30000000))]⟩]

/-- Three income years with strictly positive net income 100, 200, 400. -/
def stmts_growth : List FinancialStatement :=
  [⟨"income", 2020, [("netIncome", RawValue.num 100)]⟩,
   ⟨"income", 2021, [("netIncome", RawValue.num 200)]⟩,
   ⟨"income", 2022, [("netIncome", RawValue.num 400)]⟩]

/-- A single balance statement carrying 10 shares outstanding. -/
def stmts_shares : List FinancialStatement :=
  [⟨"balance", 2023, [("commonStockSharesOutstanding", RawValue.num 10)]⟩]

/-- The C8 counterexample metrics: owner earnings present and truthy,
earnings growth present and exactly 0. -/
def metrics_dcf0 : Metrics :=
  { ticker := "D", owner_earnings := some 100, earnings_growth := some 0 }

/-- DCF witness metrics: truthy owner earnings and a small positive
earnings growth. -/
def metrics_dcf_pos : Metrics :=
  { ticker := "D", owner_earnings := some 100, earnings_growth := some (1/100) }

/-- EPV witness metrics: truthy owner earnings and book value, current ratio
3 so no downgrade applies. -/
def metrics_epv : Metrics :=
  { ticker := "E", owner_earnings := some 100, book_value_per_share := some 10,
    current_ratio := some 3 }

/-- Asset-based metrics with a positive NCAV per share. -/
def metrics_ncav : Metrics := { ticker := "A", ncav_per_share := some 10 }

/-- Asset-based metrics with only a positive tangible book value. -/
def metrics_tbv : Metrics := { ticker := "A", tangible_book_value := some 10 }

/-- The C9 example candidates: (score 90, margin 0.7), (85, 0.6),
(80, 0.8). -/
def screen_rank_90 : ScreenResult :=
  { screen_good with ticker := "A", graham_score := 90, margin_of_safety := 7/10 }

def screen_rank_85 : ScreenResult :=
  { screen_good with ticker := "B", graham_score := 85, margin_of_safety := 3/5 }

def screen_rank_80 : ScreenResult :=
  { screen_good with ticker := "C", graham_score := 80, margin_of_safety := 4/5 }

/- Theorems. -/

/-- Claim C1 (code bug): metric extraction is claimed never to raise on raw
values that are null, empty string, or non-numeric, but on a balance
statement whose shortTermDebt is null the source adds two Optional
safe_float results (src/valuations.py lines 108-111), raising a TypeError;
the embedding returns the error. -/
theorem C1_extraction_raises_on_null_short_term_debt :
    calculate_financial_metrics (fun a b => a * b) defaultConfig stmts_null_debt
      "TICK" 10 = .error () := by
  rfl

/-- Claim C3 (code bug): the Graham filter is claimed never to raise even on
candidates with absent optional metrics, but on a candidate whose
current_ratio is absent the check-1 reason f-string formats None with :.2f
(src/screener.py line 216), raising a TypeError; the embedding returns the
error. -/
theorem C3_filter_raises_on_absent_current_ratio :
    apply_graham_filters defaultConfig [screen_no_cr] = .error () := by
  rfl

/-- Claim C5 (code bug): on the candidate with current_ratio 2.5,
debt_to_equity 0.3, pe 12, pb 1.2, growth 0.08, 10 dividend years, book
value 20 and margin of safety 0.6, the filter accepts, but the composite
score the source computes is exactly 75, not at least 80 as the claim (and
the repo's own test_calculate_graham_score_excellent) state. -/
theorem C5_filter_accepts_but_score_is_75 :
    apply_graham_filters defaultConfig [screen_good] = .ok [screen_good] ∧
    calculate_graham_score metrics_good (3/5) = 75 ∧
    ¬ (80 : ℚ) ≤ calculate_graham_score metrics_good (3/5) := by
  refine ⟨by rfl, by decide, by decide⟩

/-- Claim C4 counterexample: a candidate identical to the passing one except
that earnings_growth is present with value exactly 0 is excluded, and the
only violated rule is check 3 — refuting the claim that a present growth of
exactly 0 passes check 3. -/
theorem C4_counterexample_zero_growth_excluded :
    screen_eg0.metrics.earnings_growth = some 0 ∧
    graham_reasons defaultConfig screen_eg0 = .ok [Reason.earnings_growth_bad] ∧
    apply_graham_filters defaultConfig [screen_eg0] = .ok [] := by
  refine ⟨rfl, rfl, rfl⟩


/- Helper lemmas for the filter checks. -/

theorem check1_ok_no_growth_reason (cfg : Config) (m : Metrics) (l : List Reason)
    (h : check1 cfg m = .ok l) : Reason.earnings_growth_bad ∉ l := by
  unfold check1 at h
  cases hcr : m.current_ratio with
  | none => rw [hcr] at h; simp at h
  | some v =>
    rw [hcr] at h
    simp only [] at h
    split at h
    · cases h; simp
    · cases h; simp

theorem check2_no_growth_reason (cfg : Config) (m : Metrics) :
    Reason.earnings_growth_bad ∉ check2 cfg m := by
  cases hde : m.debt_to_equity
  · simp [check2, hde]
  · simp only [check2, hde]
    split <;> simp

theorem check4_no_growth_reason (cfg : Config) (m : Metrics) :
    Reason.earnings_growth_bad ∉ check4 cfg m := by
  cases hpe : m.pe_ratio
  · simp [check4, hpe]
  · simp only [check4, hpe]
    split <;> simp

theorem check5_no_growth_reason (cfg : Config) (m : Metrics) :
    Reason.earnings_growth_bad ∉ check5 cfg m := by
  cases hpb : m.pb_ratio
  · simp [check5, hpb]
  · simp only [check5, hpb]
    split <;> simp

theorem check6_no_growth_reason (m : Metrics) :
    Reason.earnings_growth_bad ∉ check6 m := by
  cases hpe : m.pe_ratio <;> cases hpb : m.pb_ratio
  · simp [check6, hpe, hpb]
  · simp [check6, hpe, hpb]
  · simp [check6, hpe, hpb]
  · simp only [check6, hpe, hpb]
    split <;> simp

theorem check7_no_growth_reason (cfg : Config) (mos : ℚ) :
    Reason.earnings_growth_bad ∉ check7 cfg mos := by
  unfold check7
  split <;> simp

theorem check8_no_growth_reason (m : Metrics) :
    Reason.earnings_growth_bad ∉ check8 m := by
  cases hbv : m.book_value_per_share
  · simp [check8, hbv]
  · simp only [check8, hbv]
    split <;> simp

theorem mem_check3_iff (m : Metrics) :
    Reason.earnings_growth_bad ∈ check3 m ↔
      ¬ ∃ v, m.earnings_growth = some v ∧ 0 < v := by
  cases heg : m.earnings_growth with
  | none => simp [check3, heg]
  | some v =>
    simp only [check3, heg]
    split
    · rename_i hv
      simp only [List.mem_singleton, true_iff]
      rintro ⟨w, hw, hpos⟩
      cases Option.some.inj hw
      rcases hv with rfl | hlt
      · exact lt_irrefl 0 hpos
      · exact absurd hpos (not_lt.mpr hlt.le)
    · rename_i hv
      push_neg at hv
      simp only [List.not_mem_nil, false_iff, not_not]
      exact ⟨v, rfl, lt_of_le_of_ne hv.2 (Ne.symm hv.1)⟩

/-- Claim C4 (amended): filter check 3 passes exactly when earnings_growth
is present and strictly positive; a present value of exactly 0 is excluded
(Python truthiness of 0.0). -/
theorem C4_check3_passes_iff_growth_positive (cfg : Config) (r : ScreenResult)
    (rs : List Reason) (h : graham_reasons cfg r = .ok rs) :
    (Reason.earnings_growth_bad ∉ rs) ↔
      ∃ v, r.metrics.earnings_growth = some v ∧ 0 < v := by
  unfold graham_reasons at h
  cases h1 : check1 cfg r.metrics with
  | error e => rw [h1] at h; simp at h
  | ok l1 =>
    rw [h1] at h
    cases h
    have n1 := check1_ok_no_growth_reason cfg r.metrics l1 h1
    have n2 := check2_no_growth_reason cfg r.metrics
    have n4 := check4_no_growth_reason cfg r.metrics
    have n5 := check5_no_growth_reason cfg r.metrics
    have n6 := check6_no_growth_reason r.metrics
    have n7 := check7_no_growth_reason cfg r.margin_of_safety
    have n8 := check8_no_growth_reason r.metrics
    rw [not_iff_comm, Iff.comm]
    simp only [List.mem_append, n1, n2, n4, n5, n6, n7, n8, or_false, false_or]
    rw [mem_check3_iff]


/-- Witness for C4: applied to the passing candidate, whose reasons list is
empty and whose growth 0.08 is positive. -/
theorem C4_check3_passes_iff_growth_positive_witness :
    (Reason.earnings_growth_bad ∉ ([] : List Reason)) ↔
      ∃ v, screen_good.metrics.earnings_growth = some v ∧ 0 < v :=
  C4_check3_passes_iff_growth_positive defaultConfig screen_good [] (by rfl)

/- Helper lemmas for triangulation. -/

theorem triangulate_foldl (l : List ValuationResult) (a b : ℚ) :
    l.foldl
      (fun acc v =>
        let weight := (weights_lookup v.confidence).getD 1
        (acc.1 + v.intrinsic_value * weight, acc.2 + weight)) (a, b)
    = (a + (l.map (fun v => v.intrinsic_value * (weights_lookup v.confidence).getD 1)).sum,
       b + (l.map (fun v => (weights_lookup v.confidence).getD 1)).sum) := by
  induction l generalizing a b with
  | nil => simp
  | cons x xs ih =>
    simp only [List.foldl_cons, List.map_cons, List.sum_cons, ih, Prod.mk.injEq]
    constructor <;> ring

theorem one_le_weight (v : ValuationResult) :
    1 ≤ (weights_lookup v.confidence).getD 1 := by
  unfold weights_lookup
  split_ifs <;> norm_num

theorem total_weight_pos (vals : List ValuationResult) (h : vals ≠ []) :
    0 < (vals.map (fun v => (weights_lookup v.confidence).getD 1)).sum := by
  cases vals with
  | nil => exact absurd rfl h
  | cons x xs =>
    simp only [List.map_cons, List.sum_cons]
    have h1 := one_le_weight x
    have h2 : 0 ≤ (xs.map (fun v => (weights_lookup v.confidence).getD 1)).sum := by
      refine List.sum_nonneg ?_
      intro y hy
      rcases List.mem_map.1 hy with ⟨v, _, rfl⟩
      linarith [one_le_weight v]
    linarith

/-- Claim C2: triangulation returns absent on the empty list, otherwise the
confidence-weighted mean with weights high 3, medium 2, low 1 and default 1
for an unrecognized confidence; on the three estimates (16.80 high, 2.00
medium, 25.00 low) the result is within 0.01 of 13.23. -/
theorem C2_triangulate_weighted_mean :
    triangulate_value [] = none ∧
    (∀ vals : List ValuationResult, vals ≠ [] →
       triangulate_value vals =
         some ((vals.map (fun v => v.intrinsic_value * (weights_lookup v.confidence).getD 1)).sum
               / (vals.map (fun v => (weights_lookup v.confidence).getD 1)).sum)) ∧
    (weights_lookup "high").getD 1 = 3 ∧
    (weights_lookup "medium").getD 1 = 2 ∧
    (weights_lookup "low").getD 1 = 1 ∧
    (∀ c : String, c ≠ "high" → c ≠ "medium" → c ≠ "low" →
       (weights_lookup c).getD 1 = 1) ∧
    |(triangulate_value [est_high_1680, est_medium_200, est_low_2500]).getD 0
      - 1323/100| ≤ 1/100 := by
  refine ⟨rfl, ?_, by decide, by decide, by decide, ?_, by decide⟩
  · intro vals hne
    cases vals with
    | nil => exact absurd rfl hne
    | cons x xs =>
      show (let acc := (x :: xs).foldl
              (fun acc v =>
                let weight := (weights_lookup v.confidence).getD 1
                (acc.1 + v.intrinsic_value * weight, acc.2 + weight)) (0, 0)
            if 0 < acc.2 then some (acc.1 / acc.2) else none) = _
      rw [triangulate_foldl]
      simp only [zero_add]
      rw [if_pos (total_weight_pos (x :: xs) hne)]
  · intro c h1 h2 h3
    simp [weights_lookup, h1, h2, h3]

/-- Witness for C2: the general weighted-mean formula applied to a
one-element list, and the default weight applied to an unrecognized
confidence string. -/
theorem C2_triangulate_weighted_mean_witness :
    triangulate_value [est_low_2500] =
      some ((([est_low_2500]).map
              (fun v => v.intrinsic_value * (weights_lookup v.confidence).getD 1)).sum
            / (([est_low_2500]).map (fun v => (weights_lookup v.confidence).getD 1)).sum) ∧
    (weights_lookup "unknown").getD 1 = 1 :=
  ⟨C2_triangulate_weighted_mean.2.1 [est_low_2500] (by simp),
   C2_triangulate_weighted_mean.2.2.2.2.2.1 "unknown" (by decide) (by decide) (by decide)⟩


/- Truthiness unfolding lemmas. -/

@[simp] theorem truthy_none : truthy none = false := rfl

@[simp] theorem truthy_some (q : ℚ) : truthy (some q) = (q != 0) := rfl

/-- Claim C7 counterexample: with operating cash flow 100, capex reported as
exactly 0 and depreciation 10, the source takes the depreciation branch
(Python truthiness of 0.0) and returns 89, while the claim's priority rule
(branch (a) whenever capex is reported) gives 100. -/
theorem C7_counterexample_capex_reported_zero :
    ocf_at stmts_capex0 2023 = some 100 ∧
    capex_at stmts_capex0 2023 = some 0 ∧
    dep_at stmts_capex0 2023 = some 10 ∧
    calculate_owner_earnings defaultConfig stmts_capex0 2023 = some 89 ∧
    owner_earnings_claim defaultConfig (ocf_at stmts_capex0 2023)
      (capex_at stmts_capex0 2023) (dep_at stmts_capex0 2023) = some 100 ∧
    (89 : ℚ) ≠ 100 := by
  refine ⟨by decide, by decide, by decide, by decide, by decide, by decide⟩

/-- Claim C7 (amended): owner earnings equals operating cash flow minus the
maintenance-capex estimate with priority (a) capex reported and nonzero,
(b) depreciation reported and nonzero, (c) 20 percent of operating cash flow
otherwise; absent when operating cash flow is absent or zero, or the
computed value is at most 0. With operating cash flow 120,000,000 and capex
-30,000,000 under the default multiplier 1.2 it equals 84,000,000
exactly. -/
theorem C7_owner_earnings_amended_formula :
    (∀ (cfg : Config) (statements : List FinancialStatement) (ly : ℕ),
       calculate_owner_earnings cfg statements ly =
         owner_earnings_amended cfg (ocf_at statements ly) (capex_at statements ly)
           (dep_at statements ly)) ∧
    calculate_owner_earnings defaultConfig stmts_84m 2023 = some 84000000 := by
  constructor
  · intro cfg statements ly
    unfold calculate_owner_earnings owner_earnings_amended ocf_at capex_at dep_at
    cases hcf : stmtAt statements "cash_flow" ly with
    | none => rfl
    | some cf =>
      dsimp only
      cases hocf : sfGet cf.data "operatingCashflow" with
      | none => rfl
      | some o =>
        dsimp only
        by_cases ho : o = 0
        · rw [if_pos ho, if_pos ho]
        · rw [if_neg ho, if_neg ho]
          have key : ∀ x : ℚ, (if 0 < x then some x else none)
              = (if x ≤ 0 then none else some x) := by
            intro x
            split_ifs with h1 h2 <;> first | rfl | linarith
          have h45 : o - o * (1/5) = o * (4/5) := by ring
          cases hcap : sfGet0 cf.data "capitalExpenditures" with
          | some c =>
            dsimp only
            by_cases hc : c = 0
            · rw [if_neg (not_not_intro hc), if_neg (not_not_intro hc)]
              cases hinc : stmtAt statements "income" ly with
              | none => dsimp only; rw [h45]; exact key _
              | some inc =>
                dsimp only
                cases hdep : sfGet0 inc.data "depreciationAndAmortization" with
                | none => dsimp only; rw [h45]; exact key _
                | some d =>
                  dsimp only
                  by_cases hd : d = 0
                  · rw [if_neg (not_not_intro hd), if_neg (not_not_intro hd), h45]
                    exact key _
                  · rw [if_pos hd, if_pos hd]
                    exact key _
            · rw [if_pos hc, if_pos hc]
              exact key _
          | none =>
            dsimp only
            cases hinc : stmtAt statements "income" ly with
            | none => dsimp only; rw [h45]; exact key _
            | some inc =>
              dsimp only
              cases hdep : sfGet0 inc.data "depreciationAndAmortization" with
              | none => dsimp only; rw [h45]; exact key _
              | some d =>
                dsimp only
                by_cases hd : d = 0
                · rw [if_neg (not_not_intro hd), if_neg (not_not_intro hd), h45]
                  exact key _
                · rw [if_pos hd, if_pos hd]
                  exact key _
  · decide

/-- Claim C8 counterexample: owner earnings present and truthy, shares
available from a balance statement, but an earnings growth present with
value exactly 0 makes the conservative DCF absent, refuting the claim that
growth 0 is merely clamped. -/
theorem C8_counterexample_zero_growth_absent :
    metrics_dcf0.owner_earnings = some 100 ∧
    metrics_dcf0.earnings_growth = some 0 ∧
    find_shares_outstanding stmts_shares = some 10 ∧
    calculate_conservative_dcf stmts_shares 1 metrics_dcf0 = none := by
  exact ⟨rfl, rfl, by decide, by rfl⟩

/-- Claim C8 (amended): the conservative DCF returns an estimate exactly
when owner_earnings and earnings_growth are present and truthy (Python
truthiness, so a value of exactly 0 counts as missing) and some balance
statement exposes truthy shares outstanding; in every other case it returns
absent, never an error, and an earnings_growth of exactly 0 always makes
the result absent. -/
theorem C8_dcf_present_iff_inputs_truthy :
    (∀ (statements : List FinancialStatement) (p : ℚ) (m : Metrics),
       (calculate_conservative_dcf statements p m).isSome =
         (truthy m.owner_earnings && truthy m.earnings_growth &&
          (find_shares_outstanding statements).isSome)) ∧
    (∀ (statements : List FinancialStatement) (p : ℚ) (m : Metrics),
       calculate_conservative_dcf statements p { m with earnings_growth := some 0 }
         = none) := by
  constructor
  · intro statements p m
    unfold calculate_conservative_dcf
    cases how : m.owner_earnings with
    | none => rfl
    | some oe =>
      dsimp only
      rw [truthy_some]
      by_cases hoe : oe = 0
      · subst hoe
        simp
      · rw [if_neg hoe]
        cases heg : m.earnings_growth with
        | none => simp [hoe]
        | some eg =>
          dsimp only
          rw [truthy_some]
          by_cases heg0 : eg = 0
          · subst heg0
            simp
          · rw [if_neg heg0]
            cases hsh : find_shares_outstanding statements with
            | none => simp [hoe, heg0, hsh]
            | some sh => simp [hoe, heg0, hsh]
  · intro statements p m
    unfold calculate_conservative_dcf
    cases m.owner_earnings with
    | none => rfl
    | some oe =>
      dsimp only
      by_cases hoe : oe = 0
      · rw [if_pos hoe]
      · rw [if_neg hoe]
        simp


/- Helper lemmas for earnings growth. -/

theorem collect_earnings_none_of_bad (statements : List FinancialStatement) :
    ∀ (l : List ℕ) (y : ℕ), y ∈ l →
      (¬ ∃ v, net_income_at statements y = some v ∧ 0 < v) →
      collect_earnings statements l = none := by
  intro l
  induction l with
  | nil => intro y hy _; exact absurd hy (List.not_mem_nil y)
  | cons z zs ih =>
    intro y hy hbad
    rcases List.mem_cons.1 hy with rfl | hy2
    · cases hni : net_income_at statements y with
      | none => simp [collect_earnings, hni]
      | some v =>
        have hcond : ¬ (v ≠ 0 ∧ 0 < v) := fun hc => hbad ⟨v, hni, hc.2⟩
        simp [collect_earnings, hni, hcond]
    · cases hni : net_income_at statements z with
      | none => simp [collect_earnings, hni]
      | some v =>
        by_cases hc : v ≠ 0 ∧ 0 < v
        · simp [collect_earnings, hni, hc, ih y hy2 hbad]
        · simp [collect_earnings, hni, hc]

theorem collect_earnings_all_pos (statements : List FinancialStatement) :
    ∀ (l : List ℕ),
      (∀ y ∈ l, ∃ v, net_income_at statements y = some v ∧ 0 < v) →
      collect_earnings statements l
        = some (l.map (fun y => (net_income_at statements y).getD 0)) := by
  intro l
  induction l with
  | nil => intro _; rfl
  | cons z zs ih =>
    intro hall
    obtain ⟨v, hv, hpos⟩ := hall z (List.mem_cons_self z zs)
    have hcond : v ≠ 0 ∧ 0 < v := ⟨ne_of_gt hpos, hpos⟩
    simp [collect_earnings, hv, hcond, ih (fun y hy => hall y (List.mem_cons_of_mem z hy))]

theorem eg_absent_of_bad (pw : ℚ → ℚ → ℚ) (statements : List FinancialStatement)
    (y : ℕ) (hy : y ∈ income_years statements)
    (hbad : ¬ ∃ v, net_income_at statements y = some v ∧ 0 < v) :
    calculate_earnings_growth pw statements = none := by
  unfold calculate_earnings_growth
  by_cases hlen : (income_years statements).length < 3
  · simp [hlen]
  · simp [hlen, collect_earnings_none_of_bad statements (income_years statements) y hy hbad]

theorem stmtAt_append_last (statements : List FinancialStatement)
    (s : FinancialStatement) (ty : String) (yr : ℕ)
    (hty : s.statement_type = ty) (hyr : s.year = yr) :
    stmtAt (statements ++ [s]) ty yr = some s := by
  unfold stmtAt
  rw [List.filter_append]
  have h1 : List.filter (fun t => t.statement_type == ty && t.year == yr) [s] = [s] := by
    simp [hty, hyr]
  rw [h1, List.getLast?_concat]

theorem mem_income_years_append (statements : List FinancialStatement)
    (y : ℕ) (d : StmtData) :
    y ∈ income_years (statements ++ [⟨"income", y, d⟩]) := by
  unfold income_years type_years
  rw [List.mem_mergeSort, List.mem_dedup]
  simp only [List.mem_map, List.mem_filter, List.mem_append]
  exact ⟨⟨"income", y, d⟩, ⟨Or.inr (List.mem_singleton_self _), by simp⟩, rfl⟩

theorem getLastD_map (f : ℕ → ℚ) :
    ∀ (l : List ℕ) (d : ℕ), (l.map f).getLastD (f d) = f (l.getLastD d) := by
  intro l
  induction l with
  | nil => intro d; rfl
  | cons z zs ih =>
    intro d
    rw [List.map_cons, List.getLastD_cons, List.getLastD_cons, ih]

theorem eg_formula (pw : ℚ → ℚ → ℚ) (statements : List FinancialStatement)
    (h3 : 3 ≤ (income_years statements).length)
    (hall : ∀ y ∈ income_years statements,
      ∃ v, net_income_at statements y = some v ∧ 0 < v) :
    calculate_earnings_growth pw statements =
      some (pw ((net_income_at statements ((income_years statements).getLastD 0)).getD 0
                / (net_income_at statements ((income_years statements).headD 0)).getD 0)
               (1 / ((income_years statements).length - 1 : ℚ)) - 1) := by
  unfold calculate_earnings_growth
  have hlen : ¬ (income_years statements).length < 3 := by omega
  rw [if_neg hlen, collect_earnings_all_pos statements (income_years statements) hall]
  dsimp only
  rw [List.length_map, if_neg hlen]
  obtain ⟨z, zs, hzz⟩ : ∃ z zs, income_years statements = z :: zs := by
    cases h : income_years statements with
    | nil => rw [h] at h3; simp at h3
    | cons a b => exact ⟨a, b, rfl⟩
  obtain ⟨v, hv, hpos⟩ := hall ((income_years statements).headD 0) (by
    rw [hzz]; simp only [List.headD_cons]; exact List.mem_cons_self z zs)
  rw [hzz]
  rw [hzz] at hv
  simp only [List.headD_cons] at hv
  simp only [List.map_cons, List.headD_cons, List.length_cons, List.getLastD_cons, hv,
    Option.getD_some]
  have hglast : ((zs.map (fun y => (net_income_at statements y).getD 0)).getLastD
      ((net_income_at statements z).getD 0)) =
      (net_income_at statements (zs.getLastD z)).getD 0 := getLastD_map _ zs z
  rw [hv] at hglast
  simp only [Option.getD_some] at hglast
  rw [hglast, if_pos hpos]

theorem income_years_sorted (statements : List FinancialStatement) :
    (income_years statements).Sorted (fun a b => a ≤ b) := by
  unfold income_years
  have hp := @List.sorted_mergeSort ℕ (fun a b => decide (a ≤ b))
    (fun a b c h1 h2 => by
      simp only [decide_eq_true_eq] at h1 h2 ⊢; omega)
    (fun a b => by
      simp only [Bool.or_eq_true, decide_eq_true_eq]; omega)
    (type_years statements "income")
  exact hp.imp (fun h => by simpa using h)

theorem mem_income_years (statements : List FinancialStatement) (y : ℕ) :
    y ∈ income_years statements ↔
      ∃ s ∈ statements, s.statement_type = "income" ∧ s.year = y := by
  unfold income_years type_years
  rw [List.mem_mergeSort, List.mem_dedup]
  simp only [List.mem_map, List.mem_filter, Bool.and_eq_true, beq_iff_eq]
  constructor
  · rintro ⟨s, ⟨hs, hty⟩, hyr⟩
    exact ⟨s, hs, hty, hyr⟩
  · rintro ⟨s, hs, hty, hyr⟩
    exact ⟨s, ⟨hs, hty⟩, hyr⟩

/-- Claim C6: earnings growth is absent when fewer than 3 income years are
available or any year's net income is missing or non-positive (inserting a
single bad year invalidates the whole series); otherwise it equals
pw(latest/earliest, 1/(n-1)) - 1 computed from the first and last net
incomes over the income years sorted ascending, where pw abstracts float
exponentiation. -/
theorem C6_earnings_growth_characterization (pw : ℚ → ℚ → ℚ)
    (statements : List FinancialStatement) :
    ((income_years statements).length < 3 →
       calculate_earnings_growth pw statements = none) ∧
    (∀ y ∈ income_years statements,
       (¬ ∃ v, net_income_at statements y = some v ∧ 0 < v) →
       calculate_earnings_growth pw statements = none) ∧
    (∀ (y : ℕ) (d : StmtData), y ∉ income_years statements →
       (¬ ∃ v, sfGet d "netIncome" = some v ∧ 0 < v) →
       calculate_earnings_growth pw (statements ++ [⟨"income", y, d⟩]) = none) ∧
    (3 ≤ (income_years statements).length →
     (∀ y ∈ income_years statements,
        ∃ v, net_income_at statements y = some v ∧ 0 < v) →
     calculate_earnings_growth pw statements =
       some (pw ((net_income_at statements ((income_years statements).getLastD 0)).getD 0
                 / (net_income_at statements ((income_years statements).headD 0)).getD 0)
                (1 / ((income_years statements).length - 1 : ℚ)) - 1)) ∧
    (income_years statements).Sorted (fun a b => a ≤ b) ∧
    (∀ y : ℕ, y ∈ income_years statements ↔
       ∃ s ∈ statements, s.statement_type = "income" ∧ s.year = y) := by
  refine ⟨?_, ?_, ?_, eg_formula pw statements, income_years_sorted statements,
    fun y => mem_income_years statements y⟩
  · intro hlen
    unfold calculate_earnings_growth
    simp [hlen]
  · intro y hy hbad
    exact eg_absent_of_bad pw statements y hy hbad
  · intro y d hnew hbad
    have heq : net_income_at (statements ++ [⟨"income", y, d⟩]) y = sfGet d "netIncome" := by
      unfold net_income_at
      rw [stmtAt_append_last statements ⟨"income", y, d⟩ "income" y rfl rfl]
    refine eg_absent_of_bad pw (statements ++ [FinancialStatement.mk "income" y d]) y
      (mem_income_years_append statements y d) ?_
    rw [heq]
    exact hbad

/-- Witness for C6: inserting a zero-net-income year into the valid
2020-2022 series gives absent, and the valid series itself yields the
first-and-last CAGR formula. -/
theorem C6_earnings_growth_characterization_witness :
    calculate_earnings_growth (fun a b => a * b)
      (stmts_growth ++ [⟨"income", 2023, [("netIncome", RawValue.num 0)]⟩]) = none ∧
    calculate_earnings_growth (fun a b => a * b) stmts_growth =
      some ((fun a b => a * b)
        ((net_income_at stmts_growth ((income_years stmts_growth).getLastD 0)).getD 0
         / (net_income_at stmts_growth ((income_years stmts_growth).headD 0)).getD 0)
        (1 / ((income_years stmts_growth).length - 1 : ℚ)) - 1) := by
  have he : income_years stmts_growth = [2020, 2021, 2022] := by
    unfold income_years
    have h1 : type_years stmts_growth "income" = [2020, 2021, 2022] := by decide
    rw [h1]
    exact List.mergeSort_of_sorted (by decide)
  constructor
  · refine (C6_earnings_growth_characterization (fun a b => a * b) stmts_growth).2.2.1
      2023 [("netIncome", RawValue.num 0)] (by rw [he]; decide) ?_
    rintro ⟨v, hv, hp⟩
    have hval : sfGet [("netIncome", RawValue.num 0)] "netIncome" = some 0 := by decide
    rw [hval] at hv
    cases Option.some.inj hv
    exact lt_irrefl 0 hp
  · refine (C6_earnings_growth_characterization (fun a b => a * b) stmts_growth).2.2.2.1
      (by rw [he]; decide) ?_
    intro y hy
    rw [he] at hy
    simp only [List.mem_cons, List.not_mem_nil, or_false] at hy
    rcases hy with rfl | rfl | rfl
    · exact ⟨100, rfl, by norm_num⟩
    · exact ⟨200, rfl, by norm_num⟩
    · exact ⟨400, rfl, by norm_num⟩


/- Helper lemmas for ranking. -/

theorem key_le_iff (a b : ℚ × ℚ) :
    key_le a b = true ↔ (a.1 < b.1 ∨ (a.1 = b.1 ∧ a.2 ≤ b.2)) := by
  unfold key_le
  simp [Bool.or_eq_true, Bool.and_eq_true, decide_eq_true_eq, beq_iff_eq]

theorem key_le_refl (a : ℚ × ℚ) : key_le a a = true := by
  rw [key_le_iff]
  exact Or.inr ⟨rfl, le_refl _⟩

theorem key_le_trans (a b c : ℚ × ℚ) (h1 : key_le a b = true)
    (h2 : key_le b c = true) : key_le a c = true := by
  rw [key_le_iff] at h1 h2 ⊢
  rcases h1 with h1 | ⟨h1a, h1b⟩ <;> rcases h2 with h2 | ⟨h2a, h2b⟩
  · exact Or.inl (lt_trans h1 h2)
  · exact Or.inl (h2a ▸ h1)
  · exact Or.inl (h1a ▸ h2)
  · exact Or.inr ⟨h1a.trans h2a, le_trans h1b h2b⟩

theorem key_le_total (a b : ℚ × ℚ) : (key_le a b || key_le b a) = true := by
  rw [Bool.or_eq_true, key_le_iff, key_le_iff]
  rcases lt_trichotomy a.1 b.1 with h | h | h
  · exact Or.inl (Or.inl h)
  · rcases le_total a.2 b.2 with h2 | h2
    · exact Or.inl (Or.inr ⟨h, h2⟩)
    · exact Or.inr (Or.inr ⟨h.symm, h2⟩)
  · exact Or.inr (Or.inl h)

theorem desc_le_trans (a b c : ScreenResult) (h1 : desc_le a b = true)
    (h2 : desc_le b c = true) : desc_le a c = true :=
  key_le_trans (sort_key c) (sort_key b) (sort_key a) h2 h1

theorem desc_le_total (a b : ScreenResult) : (desc_le a b || desc_le b a) = true :=
  key_le_total (sort_key b) (sort_key a)

theorem clear_rank_set_rank (s : ScreenResult) (i : ℕ) :
    clear_rank { s with rank := i } = clear_rank s := rfl

theorem sort_key_set_rank (s : ScreenResult) (i : ℕ) :
    sort_key { s with rank := i } = sort_key s := rfl

theorem assign_ranks_map_clear (i : ℕ) (l : List ScreenResult) :
    (assign_ranks i l).map clear_rank = l.map clear_rank := by
  induction l generalizing i with
  | nil => rfl
  | cons s rest ih => simp [assign_ranks, ih, clear_rank_set_rank]

theorem assign_ranks_map_key (i : ℕ) (l : List ScreenResult) :
    (assign_ranks i l).map sort_key = l.map sort_key := by
  induction l generalizing i with
  | nil => rfl
  | cons s rest ih => simp [assign_ranks, ih, sort_key_set_rank]

theorem assign_ranks_map_rank (i : ℕ) (l : List ScreenResult) :
    (assign_ranks i l).map ScreenResult.rank = List.range' i l.length := by
  induction l generalizing i with
  | nil => rfl
  | cons s rest ih => simp [assign_ranks, ih, List.range']

theorem assign_ranks_filter_clear (p : ScreenResult → Bool)
    (hp : ∀ (s : ScreenResult) (i : ℕ), p { s with rank := i } = p s)
    (i : ℕ) (l : List ScreenResult) :
    ((assign_ranks i l).filter p).map clear_rank = (l.filter p).map clear_rank := by
  induction l generalizing i with
  | nil => rfl
  | cons s rest ih =>
    simp only [assign_ranks, List.filter_cons, hp s i]
    by_cases hps : p s = true
    · simp [hps, ih, clear_rank_set_rank]
    · simp [hps, ih]

theorem mergeSort_filter_eq_key (stocks : List ScreenResult) (c : ℚ × ℚ) :
    (stocks.mergeSort desc_le).filter (fun s => sort_key s == c)
      = stocks.filter (fun s => sort_key s == c) := by
  have hmem : ∀ s : ScreenResult, (sort_key s == c) = true → sort_key s = c :=
    fun s hs => beq_iff_eq.mp hs
  have hpair : (stocks.filter (fun s => sort_key s == c)).Pairwise
      (fun a b => desc_le a b = true) := by
    refine List.pairwise_of_forall_mem_list ?_
    intro a ha b hb
    have hka := hmem a (List.mem_filter.mp ha).2
    have hkb := hmem b (List.mem_filter.mp hb).2
    unfold desc_le
    rw [hka, hkb]
    exact key_le_refl c
  have hsub : (stocks.filter (fun s => sort_key s == c)).Sublist
      (stocks.mergeSort desc_le) :=
    List.sublist_mergeSort desc_le_trans desc_le_total hpair (List.filter_sublist stocks)
  have hsub2 : (stocks.filter (fun s => sort_key s == c)).Sublist
      ((stocks.mergeSort desc_le).filter (fun s => sort_key s == c)) := by
    have h1 := hsub.filter (fun s => sort_key s == c)
    rwa [List.filter_filter, show
      (fun a => (sort_key a == c) && (sort_key a == c)) = (fun s => sort_key s == c) by
        funext a; rw [Bool.and_self]] at h1
  have hperm : ((stocks.mergeSort desc_le).filter (fun s => sort_key s == c)).Perm
      (stocks.filter (fun s => sort_key s == c)) :=
    (List.mergeSort_perm stocks desc_le).filter (fun s => sort_key s == c)
  exact (hsub2.eq_of_length hperm.length_eq.symm).symm

/-- Claim C9: ranking stably sorts by graham score then margin of safety,
both descending, preserves input order on ties (the filter by any fixed key
value is unchanged), assigns ranks 1..n in sorted order, writes only the
rank field, and leaves the example list (90, 0.7), (85, 0.6), (80, 0.8) in
place with ranks 1, 2, 3. -/
theorem C9_rank_stocks_correct (stocks : List ScreenResult) :
    ((rank_stocks stocks).map clear_rank).Perm (stocks.map clear_rank) ∧
    (rank_stocks stocks).Pairwise
      (fun a b => key_le (sort_key b) (sort_key a) = true) ∧
    (rank_stocks stocks).map ScreenResult.rank = List.range' 1 stocks.length ∧
    (∀ c : ℚ × ℚ,
       ((rank_stocks stocks).filter (fun s => sort_key s == c)).map clear_rank
         = (stocks.filter (fun s => sort_key s == c)).map clear_rank) ∧
    rank_stocks [screen_rank_90, screen_rank_85, screen_rank_80]
      = [{ screen_rank_90 with rank := 1 }, { screen_rank_85 with rank := 2 },
         { screen_rank_80 with rank := 3 }] := by
  refine ⟨?_, ?_, ?_, ?_, ?_⟩
  · rw [rank_stocks, assign_ranks_map_clear]
    exact (List.mergeSort_perm stocks desc_le).map clear_rank
  · rw [rank_stocks]
    have hs := @List.sorted_mergeSort ScreenResult desc_le desc_le_trans desc_le_total stocks
    have hmap : ((assign_ranks 1 (stocks.mergeSort desc_le)).map sort_key).Pairwise
        (fun x y => key_le y x = true) := by
      rw [assign_ranks_map_key, List.pairwise_map]
      exact hs
    exact List.pairwise_map.mp hmap
  · rw [rank_stocks, assign_ranks_map_rank, List.length_mergeSort]
  · intro c
    rw [rank_stocks, assign_ranks_filter_clear (fun s => sort_key s == c)
      (fun s i => rfl) 1, mergeSort_filter_eq_key]
  · rw [rank_stocks, List.mergeSort_of_sorted (by decide)]
    rfl


/-- Claim C10: every estimate the three valuation methods produce has
confidence in the closed set: EPV yields only high or medium (downgrades
stop at medium), asset-based yields high, medium or low and each value is
reachable, and the conservative DCF always yields low; consequently the
triangulator's default weight-1 lookup branch is unreachable for estimates
these methods produce. -/
theorem C10_confidence_closed_set :
    (∀ (cfg : Config) (statements : List FinancialStatement) (p : ℚ) (m : Metrics)
       (r : ValuationResult), calculate_epv cfg statements p m = some r →
       (r.confidence = "high" ∨ r.confidence = "medium") ∧
       weights_lookup r.confidence ≠ none) ∧
    (∀ (statements : List FinancialStatement) (p : ℚ) (m : Metrics)
       (r : ValuationResult), calculate_asset_value statements p m = some r →
       (r.confidence = "high" ∨ r.confidence = "medium" ∨ r.confidence = "low") ∧
       weights_lookup r.confidence ≠ none) ∧
    (∀ (statements : List FinancialStatement) (p : ℚ) (m : Metrics)
       (r : ValuationResult), calculate_conservative_dcf statements p m = some r →
       r.confidence = "low" ∧ weights_lookup r.confidence ≠ none) ∧
    (calculate_asset_value [] 1 metrics_ncav).map ValuationResult.confidence
      = some "high" ∧
    (calculate_asset_value [] 1 metrics_tbv).map ValuationResult.confidence
      = some "medium" ∧
    (calculate_asset_value [] 9 metrics_ncav).map ValuationResult.confidence
      = some "low" := by
  refine ⟨?_, ?_, ?_, by decide, by decide, by decide⟩
  · intro cfg statements p m r h
    unfold calculate_epv at h
    cases hoe : m.owner_earnings with
    | none => rw [hoe] at h; simp at h
    | some oe =>
      rw [hoe] at h
      dsimp only at h
      by_cases h0 : oe = 0
      · rw [if_pos h0] at h; simp at h
      · rw [if_neg h0] at h
        cases hbv : m.book_value_per_share with
        | none => rw [hbv] at h; simp at h
        | some bvps =>
          rw [hbv] at h
          dsimp only at h
          by_cases h1 : bvps = 0
          · rw [if_pos h1] at h; simp at h
          · rw [if_neg h1] at h
            cases hsh : find_shares_outstanding statements with
            | none => rw [hsh] at h; simp at h
            | some sh =>
              rw [hsh] at h
              dsimp only at h
              cases Option.some.inj h
              constructor
              · dsimp only
                repeat
                  first
                    | exact Or.inr rfl
                    | exact Or.inl rfl
                    | split
              · dsimp only
                repeat
                  first
                    | decide
                    | split
  · intro statements p m r h
    unfold calculate_asset_value at h
    dsimp only at h
    have main : ∀ (iv : ℚ) (conf0 : String) (assum warn : List String),
        (conf0 = "high" ∨ conf0 = "medium") →
        (some { method := "Asset-Based Valuation"
                intrinsic_value := iv
                current_price := p
                margin_of_safety :=
                  if 0 < iv then (iv - p) / iv else -1
                confidence :=
                  (if (if 0 < iv then (iv - p) / iv else -1) < 1/2 then
                     ("low", warn ++ ["Graham prefers 50 percent plus margin for asset plays"])
                   else (conf0, warn)).1
                assumptions := assum
                warnings :=
                  (if (if 0 < iv then (iv - p) / iv else -1) < 1/2 then
                     ("low", warn ++ ["Graham prefers 50 percent plus margin for asset plays"])
                   else (conf0, warn)).2 } : Option ValuationResult) = some r →
        (r.confidence = "high" ∨ r.confidence = "medium" ∨ r.confidence = "low") ∧
        weights_lookup r.confidence ≠ none := by
      intro iv conf0 assum warn hc hr
      cases Option.some.inj hr
      constructor
      · dsimp only
        rcases hc with rfl | rfl <;>
          repeat
            first
              | exact Or.inl rfl
              | exact Or.inr (Or.inl rfl)
              | exact Or.inr (Or.inr rfl)
              | split
      · dsimp only
        rcases hc with rfl | rfl <;>
          repeat
            first
              | (solve | simp [weights_lookup])
              | split
    cases hn : m.ncav_per_share with
    | some ncav =>
      rw [hn] at h
      dsimp only at h
      by_cases hn0 : ncav ≠ 0 ∧ 0 < ncav
      · rw [if_pos hn0] at h
        exact main ncav "high" _ _ (Or.inl rfl) h
      · rw [if_neg hn0] at h
        cases ht : m.tangible_book_value with
        | none => rw [ht] at h; simp at h
        | some tbv =>
          rw [ht] at h
          dsimp only at h
          by_cases ht0 : tbv ≠ 0 ∧ 0 < tbv
          · rw [if_pos ht0] at h
            exact main (tbv * (4/5)) "medium" _ _ (Or.inr rfl) h
          · rw [if_neg ht0] at h; simp at h
    | none =>
      rw [hn] at h
      dsimp only at h
      cases ht : m.tangible_book_value with
      | none => rw [ht] at h; simp at h
      | some tbv =>
        rw [ht] at h
        dsimp only at h
        by_cases ht0 : tbv ≠ 0 ∧ 0 < tbv
        · rw [if_pos ht0] at h
          exact main (tbv * (4/5)) "medium" _ _ (Or.inr rfl) h
        · rw [if_neg ht0] at h; simp at h
  · intro statements p m r h
    unfold calculate_conservative_dcf at h
    cases hoe : m.owner_earnings with
    | none => rw [hoe] at h; simp at h
    | some oe =>
      rw [hoe] at h
      dsimp only at h
      by_cases h0 : oe = 0
      · rw [if_pos h0] at h; simp at h
      · rw [if_neg h0] at h
        cases heg : m.earnings_growth with
        | none => rw [heg] at h; simp at h
        | some eg =>
          rw [heg] at h
          dsimp only at h
          by_cases h1 : eg = 0
          · rw [if_pos h1] at h; simp at h
          · rw [if_neg h1] at h
            cases hsh : find_shares_outstanding statements with
            | none => rw [hsh] at h; simp at h
            | some sh =>
              rw [hsh] at h
              dsimp only at h
              cases Option.some.inj h
              exact ⟨rfl, by simp [weights_lookup]⟩

/-- Witness for C10: one concrete estimate per method, each with its
confidence in the closed set and a successful weight lookup. -/
theorem C10_confidence_closed_set_witness :
    (∃ r, calculate_epv defaultConfig stmts_shares 1 metrics_epv = some r ∧
       ((r.confidence = "high" ∨ r.confidence = "medium") ∧
        weights_lookup r.confidence ≠ none)) ∧
    (∃ r, calculate_asset_value [] 1 metrics_ncav = some r ∧
       ((r.confidence = "high" ∨ r.confidence = "medium" ∨ r.confidence = "low") ∧
        weights_lookup r.confidence ≠ none)) ∧
    (∃ r, calculate_conservative_dcf stmts_shares 1 metrics_dcf_pos = some r ∧
       (r.confidence = "low" ∧ weights_lookup r.confidence ≠ none)) :=
  ⟨⟨_, rfl, C10_confidence_closed_set.1 defaultConfig stmts_shares 1 metrics_epv _ rfl⟩,
   ⟨_, rfl, C10_confidence_closed_set.2.1 [] 1 metrics_ncav _ rfl⟩,
   ⟨_, rfl, C10_confidence_closed_set.2.2.1 stmts_shares 1 metrics_dcf_pos _ rfl⟩⟩

end GrahamSA
